import Mathlib

/-!
# Verification of the TariffTok tariff-lookup and execution-engine core

Shallow embedding of the repository's core modules:

* `src/core/data_loader.py` — CSV loading (`tariffs_df`), point-in-time
  lookup (`get_tariff_rate`) and historical lookup (`get_tariff_with_history`);
* `src/core/models.py` — the `TariffResult.__init__` derived-field logic and
  the pydantic range validation on its fields;
* `src/agents/tariff_lookup.py` — `lookup_tariff`;
* `src/agents/error_handler.py` — `error_handler_node`;
* `src/agents/query_parser.py` — `parse_query_node` (the LLM classification
  call is a black-box parameter, per the spec's external-collaborator model);
* `src/core/dynamic_pipeline.py` — `execute_node` and the
  `run_dynamic_analysis` driver loop.

Python floats are modelled as exact rationals (`ℚ`), dates as natural-number
keys (the loader encodes an ISO `YYYY-MM-DD` date as `y*10000 + m*100 + d`,
which preserves the chronological order), and a raised Python exception as the
`Except.error` branch of an `Except` value.
-/

deriving instance DecidableEq for Except

namespace TariffTok

/-- The `Country` enum of `src/core/models.py`. -/
inductive Country where
  | china | vietnam | mexico | india | usa
deriving DecidableEq, Repr

/-- `Country.value`: the string payload of the `str`-enum member. -/
def Country.value : Country → String
  | .china => "China"
  | .vietnam => "Vietnam"
  | .mexico => "Mexico"
  | .india => "India"
  | .usa => "USA"

/-- The `ProductType` enum of `src/core/models.py`. -/
inductive ProductType where
  | electronics | apparel | home | toys
deriving DecidableEq, Repr

/-- `ProductType.value`: the string payload of the `str`-enum member. -/
def ProductType.value : ProductType → String
  | .electronics => "Electronics"
  | .apparel => "Apparel"
  | .home => "Home"
  | .toys => "Toys"

/-- One raw CSV row of `tariffs.csv`, before the `start_time` column is
converted to a date (`pd.read_csv` has already parsed the numeric
`current_tariff` column). -/
structure RawRow where
  country : String
  product_type : String
  current_tariff : ℚ
  start_time : String
deriving DecidableEq, Repr

/-- One row of the in-memory tariff table after the `start_time` conversion:
the date is a `Nat` sort key. -/
structure TariffRow where
  country : String
  product_type : String
  current_tariff : ℚ
  start_time : Nat
deriving DecidableEq, Repr

/-- Split a character list into the groups separated by `'-'`. -/
def splitDash : List Char → List (List Char)
  | [] => [[]]
  | c :: cs =>
    if c == '-' then [] :: splitDash cs
    else
      match splitDash cs with
      | [] => [[c]]
      | g :: gs => (c :: g) :: gs

/-- Read a non-empty all-digit character group as a natural number. -/
def digitsToNat? (cs : List Char) : Option Nat :=
  match cs with
  | [] => none
  | _ =>
    cs.foldl
      (fun acc c =>
        match acc with
        | none => none
        | some n => if c.isDigit then some (n * 10 + (c.toNat - 48)) else none)
      (some 0)

/-- Parse an ISO `YYYY-MM-DD` string (the format of the repository's CSV data,
per the spec's external-interface section) into the numeric sort key
`y*10000 + m*100 + d`; `none` models `pd.to_datetime` raising on an
unparsable value. -/
def parseDate (s : String) : Option Nat :=
  match splitDash s.data with
  | [y, m, d] =>
    match digitsToNat? y, digitsToNat? m, digitsToNat? d with
    | some yn, some mn, some dn =>
      if 1 ≤ mn ∧ mn ≤ 12 ∧ 1 ≤ dn ∧ dn ≤ 31 then
        some (yn * 10000 + mn * 100 + dn)
      else none
    | _, _, _ => none
  | _ => none

/-- Row-by-row `start_time` conversion of the loaded table: the
`pd.to_datetime` column conversion of `tariffs_df`, which raises at the first
unparsable value. -/
def convertRows : List RawRow → Except String (List TariffRow)
  | [] => .ok []
  | r :: rs =>
    match parseDate r.start_time with
    | none => .error ("could not parse start_time: " ++ r.start_time)
    | some d => (convertRows rs).map (fun ts => ⟨r.country, r.product_type, r.current_tariff, d⟩ :: ts)

/-- The `tariffs_df` loading step of `TariffDataLoader` (`data_loader.py`
lines 22–35): raise `FileNotFoundError` when the CSV is missing (`none`
source), otherwise convert every row's `start_time` with `pd.to_datetime`,
raising if any row's date is unparsable.  No other validation is performed on
the rows. -/
def loadTariffs (source : Option (List RawRow)) : Except String (List TariffRow) :=
  match source with
  | none => .error "Tariffs CSV not found"
  | some rows => convertRows rows

/-- The converted form of a raw row whose date parsed. -/
def RawRow.converted (r : RawRow) : TariffRow :=
  ⟨r.country, r.product_type, r.current_tariff, (parseDate r.start_time).getD 0⟩

theorem convertRows_error_iff (rows : List RawRow) :
    (∃ e, convertRows rows = .error e) ↔ ∃ r ∈ rows, parseDate r.start_time = none := by
  induction rows with
  | nil => simp [convertRows]
  | cons r rs ih =>
    simp only [convertRows]
    cases hp : parseDate r.start_time with
    | none =>
      simp only [List.mem_cons]
      exact ⟨fun _ => ⟨r, Or.inl rfl, hp⟩, fun _ => ⟨_, rfl⟩⟩
    | some d =>
      cases hc : convertRows rs with
      | error e =>
        simp only [Except.map, List.mem_cons]
        constructor
        · intro _
          obtain ⟨x, hx, hxp⟩ := ih.mp ⟨e, hc⟩
          exact ⟨x, Or.inr hx, hxp⟩
        · intro _; exact ⟨e, rfl⟩
      | ok out =>
        simp only [Except.map, List.mem_cons]
        constructor
        · rintro ⟨e, he⟩; cases he
        · rintro ⟨x, hx | hx, hxp⟩
          · rw [hx] at hxp; rw [hxp] at hp; cases hp
          · obtain ⟨e, he⟩ := ih.mpr ⟨x, hx, hxp⟩
            rw [he] at hc; cases hc

theorem convertRows_ok_eq (rows : List RawRow) (out : List TariffRow)
    (h : convertRows rows = .ok out) : out = rows.map RawRow.converted := by
  induction rows generalizing out with
  | nil => cases h; rfl
  | cons r rs ih =>
    simp only [convertRows] at h
    cases hp : parseDate r.start_time with
    | none => rw [hp] at h; cases h
    | some d =>
      rw [hp] at h
      cases hc : convertRows rs with
      | error e => rw [hc] at h; cases h
      | ok ts =>
        rw [hc] at h
        cases h
        simp [List.map, ih ts hc, RawRow.converted, hp, Option.getD]

/-- C5 (counterexample): a single-row table whose rate is `1.5` (outside
`[0,1]`) and whose country/product strings are outside the fixed enum sets
loads successfully — the loader performs no type/range validation, so the
claim that such a row makes the load fail is false. -/
theorem C5_counterexample :
    loadTariffs (some [⟨"Atlantis", "Gadgets", 3/2, "2025-01-01"⟩]) =
      .ok [⟨"Atlantis", "Gadgets", 3/2, 20250101⟩] := by
  rfl

/-- C5 (amended): loading fails exactly when the tabular source file is
missing or some row's date is unparsable — no rate-range or enum validation
is performed — and a load failure is atomic: on success every row is loaded
(the result is the row-for-row conversion of the source), and on failure no
table is produced. -/
theorem C5_load_error_characterisation (source : Option (List RawRow)) :
    ((∃ e, loadTariffs source = .error e) ↔
      source = none ∨ ∃ rows, source = some rows ∧ ∃ r ∈ rows, parseDate r.start_time = none) ∧
    (∀ rows out, source = some rows → loadTariffs source = .ok out →
      out = rows.map RawRow.converted) := by
  constructor
  · cases source with
    | none => exact ⟨fun _ => Or.inl rfl, fun _ => ⟨"Tariffs CSV not found", rfl⟩⟩
    | some rows =>
      simp only [loadTariffs]
      rw [convertRows_error_iff rows]
      constructor
      · intro h; exact Or.inr ⟨rows, rfl, h⟩
      · rintro (h | ⟨rows', hr, h⟩)
        · cases h
        · cases hr; exact h
  · intro rows out hs h
    cases hs
    exact convertRows_ok_eq rows out h

/-- C5 (witness): the characterisation applied to a concrete one-row source. -/
theorem C5_witness :
    ([⟨"China", "Toys", 1/20, 20250101⟩] : List TariffRow) =
      ([⟨"China", "Toys", 1/20, "2025-01-01"⟩] : List RawRow).map RawRow.converted :=
  (C5_load_error_characterisation (some [⟨"China", "Toys", 1/20, "2025-01-01"⟩])).2
    [⟨"China", "Toys", 1/20, "2025-01-01"⟩] [⟨"China", "Toys", 1/20, 20250101⟩] rfl (by rfl)

/-! ## Point-in-time lookup (`get_tariff_rate`, `data_loader.py` lines 37–82) -/

/-- The rows of the table matching a `(country, product_type)` key — the
`filtered` DataFrame of `get_tariff_rate` / `get_tariff_with_history`. -/
def matchesKey (df : List TariffRow) (c : Country) (p : ProductType) : List TariffRow :=
  df.filter fun (r : TariffRow) => r.country == c.value && r.product_type == p.value

/-- `filtered.loc[filtered['start_time'].idxmax()]`: the first row attaining
the maximum `start_time` (pandas `idxmax` keeps the first occurrence on
ties). -/
def maxStep (best x : TariffRow) : TariffRow :=
  if best.start_time < x.start_time then x else best

def minStep (best x : TariffRow) : TariffRow :=
  if x.start_time < best.start_time then x else best

def argmaxDate : List TariffRow → Option TariffRow
  | [] => none
  | r :: rs => some (rs.foldl maxStep r)

/-- `filtered.loc[filtered['start_time'].idxmin()]`: the first row attaining
the minimum `start_time`. -/
def argminDate : List TariffRow → Option TariffRow
  | [] => none
  | r :: rs => some (rs.foldl minStep r)

/-- The `TariffData` pydantic model of `src/core/models.py`. -/
structure TariffData where
  country : Country
  product_type : ProductType
  current_tariff : ℚ
  start_time : Nat
deriving DecidableEq, Repr

/-- Constructing a `TariffData` runs the pydantic `Field(ge=0.0, le=1.0)`
validation on `current_tariff`; an out-of-range rate raises. -/
def mkTariffData (c : Country) (p : ProductType) (rate : ℚ) (d : Nat) :
    Except String TariffData :=
  if 0 ≤ rate ∧ rate ≤ 1 then .ok ⟨c, p, rate, d⟩
  else .error "ValidationError: current_tariff"

/-- `TariffDataLoader.get_tariff_rate` (`data_loader.py` lines 37–82) over an
explicit table.  `Except.error` models a raised exception (only the pydantic
validation of the constructed `TariffData` can raise here). -/
def get_tariff_rate (df : List TariffRow) (c : Country) (p : ProductType)
    (as_of : Option Nat) : Except String (Option TariffData) :=
  let filtered := matchesKey df c p
  match filtered with
  | [] => .ok none
  | _ :: _ =>
    let latest :=
      match as_of with
      | none => (argmaxDate filtered).getD ⟨"", "", 0, 0⟩
      | some d =>
        let valid := filtered.filter fun (r : TariffRow) => decide (r.start_time ≤ d)
        match valid with
        | [] => (argminDate filtered).getD ⟨"", "", 0, 0⟩
        | _ :: _ => (argmaxDate valid).getD ⟨"", "", 0, 0⟩
    (mkTariffData c p latest.current_tariff latest.start_time).map some

theorem foldl_maxStep_mem (rs : List TariffRow) (b : TariffRow) :
    rs.foldl maxStep b ∈ b :: rs := by
  induction rs generalizing b with
  | nil => exact List.mem_singleton.mpr rfl
  | cons x xs ih =>
    have h := ih (maxStep b x)
    simp only [List.foldl_cons]
    rcases List.mem_cons.mp h with h | h
    · rw [h]
      unfold maxStep
      split
      · exact List.mem_cons_of_mem _ (List.mem_cons_self _ _)
      · exact List.mem_cons_self _ _
    · exact List.mem_cons_of_mem _ (List.mem_cons_of_mem _ h)

theorem foldl_maxStep_le (rs : List TariffRow) (b : TariffRow) :
    ∀ x ∈ b :: rs, x.start_time ≤ (rs.foldl maxStep b).start_time := by
  induction rs generalizing b with
  | nil =>
    intro x hx
    rw [List.mem_singleton.mp hx]
    exact Nat.le_refl _
  | cons y ys ih =>
    intro x hx
    simp only [List.foldl_cons]
    have hby : b.start_time ≤ (maxStep b y).start_time ∧
        y.start_time ≤ (maxStep b y).start_time := by
      unfold maxStep
      split
      · exact ⟨Nat.le_of_lt (by assumption), Nat.le_refl _⟩
      · exact ⟨Nat.le_refl _, Nat.le_of_not_lt (by assumption)⟩
    have hacc := ih (maxStep b y) (maxStep b y) (List.mem_cons_self _ _)
    rcases List.mem_cons.mp hx with rfl | h
    · exact Nat.le_trans hby.1 hacc
    · rcases List.mem_cons.mp h with rfl | h
      · exact Nat.le_trans hby.2 hacc
      · exact ih (maxStep b y) x (List.mem_cons_of_mem _ h)

theorem foldl_minStep_mem (rs : List TariffRow) (b : TariffRow) :
    rs.foldl minStep b ∈ b :: rs := by
  induction rs generalizing b with
  | nil => exact List.mem_singleton.mpr rfl
  | cons x xs ih =>
    have h := ih (minStep b x)
    simp only [List.foldl_cons]
    rcases List.mem_cons.mp h with h | h
    · rw [h]
      unfold minStep
      split
      · exact List.mem_cons_of_mem _ (List.mem_cons_self _ _)
      · exact List.mem_cons_self _ _
    · exact List.mem_cons_of_mem _ (List.mem_cons_of_mem _ h)

theorem foldl_minStep_ge (rs : List TariffRow) (b : TariffRow) :
    ∀ x ∈ b :: rs, (rs.foldl minStep b).start_time ≤ x.start_time := by
  induction rs generalizing b with
  | nil =>
    intro x hx
    rw [List.mem_singleton.mp hx]
    exact Nat.le_refl _
  | cons y ys ih =>
    intro x hx
    simp only [List.foldl_cons]
    have hby : (minStep b y).start_time ≤ b.start_time ∧
        (minStep b y).start_time ≤ y.start_time := by
      unfold minStep
      split
      · exact ⟨Nat.le_of_lt (by assumption), Nat.le_refl _⟩
      · exact ⟨Nat.le_refl _, Nat.le_of_not_lt (by assumption)⟩
    have hacc := ih (minStep b y) (minStep b y) (List.mem_cons_self _ _)
    rcases List.mem_cons.mp hx with rfl | h
    · exact Nat.le_trans hacc hby.1
    · rcases List.mem_cons.mp h with rfl | h
      · exact Nat.le_trans hacc hby.2
      · exact ih (minStep b y) x (List.mem_cons_of_mem _ h)

/-- C1: the point-in-time lookup `get_tariff_rate` returns, for a table whose
matching rates pass the `TariffData` range validation: `None` exactly when the
`(country, product_type)` key has zero matching records; with `as_of` absent a
matching record of maximum `effective_date`; with `as_of` given a matching
record of maximum `effective_date ≤ as_of` when one exists, else (all matches
in the future) a matching record of minimum `effective_date`. -/
theorem C1_point_in_time_lookup (df : List TariffRow) (c : Country) (p : ProductType)
    (as_of : Option Nat)
    (hrange : ∀ r ∈ matchesKey df c p, 0 ≤ r.current_tariff ∧ r.current_tariff ≤ 1) :
    (get_tariff_rate df c p as_of = .ok none ↔ matchesKey df c p = []) ∧
    (matchesKey df c p ≠ [] →
      ∃ t, get_tariff_rate df c p as_of = .ok (some t) ∧
        t.country = c ∧ t.product_type = p ∧
        (∃ r ∈ matchesKey df c p,
          t.current_tariff = r.current_tariff ∧ t.start_time = r.start_time) ∧
        (match as_of with
         | none => ∀ u ∈ matchesKey df c p, u.start_time ≤ t.start_time
         | some d =>
           ((∃ u ∈ matchesKey df c p, u.start_time ≤ d) →
             t.start_time ≤ d ∧
             ∀ u ∈ matchesKey df c p, u.start_time ≤ d → u.start_time ≤ t.start_time) ∧
           ((∀ u ∈ matchesKey df c p, ¬ u.start_time ≤ d) →
             ∀ u ∈ matchesKey df c p, t.start_time ≤ u.start_time))) := by
  cases hm : matchesKey df c p with
  | nil =>
    refine ⟨by simp [get_tariff_rate, hm], fun h => absurd rfl h⟩
  | cons r rs =>
    have main : ∃ t, get_tariff_rate df c p as_of = .ok (some t) ∧
        t.country = c ∧ t.product_type = p ∧
        (∃ x ∈ r :: rs, t.current_tariff = x.current_tariff ∧ t.start_time = x.start_time) ∧
        (match as_of with
         | none => ∀ u ∈ r :: rs, u.start_time ≤ t.start_time
         | some d =>
           ((∃ u ∈ r :: rs, u.start_time ≤ d) →
             t.start_time ≤ d ∧
             ∀ u ∈ r :: rs, u.start_time ≤ d → u.start_time ≤ t.start_time) ∧
           ((∀ u ∈ r :: rs, ¬ u.start_time ≤ d) →
             ∀ u ∈ r :: rs, t.start_time ≤ u.start_time)) := by
      cases as_of with
      | none =>
        set sel := rs.foldl maxStep r with hsel
        have hmem : sel ∈ r :: rs := foldl_maxStep_mem rs r
        have hmax := foldl_maxStep_le rs r
        have hr := hrange sel (hm ▸ hmem)
        refine ⟨⟨c, p, sel.current_tariff, sel.start_time⟩, ?_, rfl, rfl,
          ⟨sel, hmem, rfl, rfl⟩, fun u hu => hmax u hu⟩
        simp [get_tariff_rate, hm, argmaxDate, mkTariffData, hr.1, hr.2, Except.map]
      | some d =>
        cases hv : (r :: rs).filter (fun (x : TariffRow) => decide (x.start_time ≤ d)) with
        | nil =>
          set sel := rs.foldl minStep r with hsel
          have hmem : sel ∈ r :: rs := foldl_minStep_mem rs r
          have hmin := foldl_minStep_ge rs r
          have hr := hrange sel (hm ▸ hmem)
          refine ⟨⟨c, p, sel.current_tariff, sel.start_time⟩, ?_, rfl, rfl,
            ⟨sel, hmem, rfl, rfl⟩, ?_, fun _ u hu => hmin u hu⟩
          · simp only [get_tariff_rate, hm, hv, argminDate, Option.getD]
            simp [mkTariffData, hr.1, hr.2, Except.map]
          · rintro ⟨u, hu, hud⟩
            have : u ∈ (r :: rs).filter (fun (x : TariffRow) => decide (x.start_time ≤ d)) :=
              List.mem_filter.mpr ⟨hu, by simpa using hud⟩
            rw [hv] at this
            cases this
        | cons v vs =>
          set sel := vs.foldl maxStep v with hsel
          have hmemv : sel ∈ v :: vs := foldl_maxStep_mem vs v
          have hmax := foldl_maxStep_le vs v
          have hmemf : sel ∈ (r :: rs).filter
              (fun (x : TariffRow) => decide (x.start_time ≤ d)) := hv ▸ hmemv
          have hmem : sel ∈ r :: rs := (List.mem_filter.mp hmemf).1
          have hseld : sel.start_time ≤ d := by
            have := (List.mem_filter.mp hmemf).2
            simpa using this
          have hr := hrange sel (hm ▸ hmem)
          refine ⟨⟨c, p, sel.current_tariff, sel.start_time⟩, ?_, rfl, rfl,
            ⟨sel, hmem, rfl, rfl⟩, fun _ => ⟨hseld, fun u hu hud => ?_⟩, fun hnone => ?_⟩
          · simp only [get_tariff_rate, hm, hv, argmaxDate, Option.getD]
            simp [mkTariffData, hr.1, hr.2, Except.map]
          · have huv : u ∈ v :: vs := by
              rw [← hv]
              exact List.mem_filter.mpr ⟨hu, by simpa using hud⟩
            exact hmax u huv
          · have hvmem : v ∈ (r :: rs).filter
                (fun (x : TariffRow) => decide (x.start_time ≤ d)) := by
              rw [hv]; exact List.mem_cons_self _ _
            have := List.mem_filter.mp hvmem
            exact absurd (by simpa using this.2) (hnone v this.1)
    obtain ⟨t, hok, hrest⟩ := main
    constructor
    · rw [hok]
      constructor
      · intro h; cases h
      · intro h; cases h
    · intro _
      exact ⟨t, hok, hrest⟩

/-- A concrete three-row table used by the lookup witnesses: two China /
Electronics records (rates 0 and 1, dated 2025-01-01 and 2025-04-01) and one
Vietnam / Toys record. -/
def dfW : List TariffRow :=
  [⟨"China", "Electronics", 0, 20250101⟩,
   ⟨"China", "Electronics", 1, 20250401⟩,
   ⟨"Vietnam", "Toys", 1, 20250101⟩]

/-- C1 (witness): the lookup characterisation applied to the concrete table
`dfW` at key (China, Electronics) with `as_of = 2025-05-01`. -/
theorem C1_witness :
    (∀ r ∈ matchesKey dfW .china .electronics, 0 ≤ r.current_tariff ∧ r.current_tariff ≤ 1) ∧
    (get_tariff_rate dfW .china .electronics (some 20250501) = .ok none ↔
      matchesKey dfW .china .electronics = []) :=
  ⟨by decide,
   (C1_point_in_time_lookup dfW .china .electronics (some 20250501) (by decide)).1⟩

/-! ## Historical lookup (`get_tariff_with_history`, `data_loader.py` lines 84–148) -/

/-- The comparison key of `filtered.sort_values('start_time')`. -/
def rowLe (a b : TariffRow) : Prop := a.start_time ≤ b.start_time

instance : DecidableRel rowLe := fun a b => Nat.decLe a.start_time b.start_time

instance : IsTotal TariffRow rowLe := ⟨fun a b => Nat.le_total a.start_time b.start_time⟩

instance : IsTrans TariffRow rowLe := ⟨fun _ _ _ => Nat.le_trans⟩

/-- `filtered.sort_values('start_time')`. -/
def sortByDate (l : List TariffRow) : List TariffRow := l.insertionSort rowLe

/-- The two selected rows among the `as_of`-valid ones: `iloc[-1]` and
`iloc[-2]` of `valid_tariffs`, or the earliest row (`iloc[0]` of the sorted
matches) with no previous when no row is dated `≤ as_of`. -/
def resolveValid (sorted valid : List TariffRow) : Option TariffRow × Option TariffRow :=
  match valid with
  | [] => (sorted.head?, none)
  | _ :: _ => (valid.getLast?, valid.dropLast.getLast?)

/-- Row selection of `get_tariff_with_history` on the sorted matching rows:
with no `as_of`, current is the latest row (`iloc[-1]`) and previous the one
before it (`iloc[-2]`, `None` for a single row); with `as_of`, current is the
latest row dated `≤ as_of` and previous the one before it among those, with
the earliest row (and no previous) as the fallback when every row is later
than `as_of`. -/
def resolvePair (sorted : List TariffRow) (as_of : Option Nat) :
    Option TariffRow × Option TariffRow :=
  match as_of with
  | none =>
    (sorted.getLast?, if 1 < sorted.length then sorted.dropLast.getLast? else none)
  | some d => resolveValid sorted (sorted.filter fun (x : TariffRow) => decide (x.start_time ≤ d))

/-- Conversion of the selected rows to `TariffData` (current first, then
previous, as in the source); a pydantic validation failure raises. -/
def convertPair (c : Country) (p : ProductType) :
    Option TariffRow × Option TariffRow →
      Except String (Option TariffData × Option TariffData)
  | (none, _) => .ok (none, none)
  | (some cu, none) =>
    match mkTariffData c p cu.current_tariff cu.start_time with
    | .error e => .error e
    | .ok cd => .ok (some cd, none)
  | (some cu, some pv) =>
    match mkTariffData c p cu.current_tariff cu.start_time with
    | .error e => .error e
    | .ok cd =>
      match mkTariffData c p pv.current_tariff pv.start_time with
      | .error e => .error e
      | .ok pd => .ok (some cd, some pd)

/-- `TariffDataLoader.get_tariff_with_history` (`data_loader.py` lines
84–148) over an explicit table. -/
def get_tariff_with_history (df : List TariffRow) (c : Country) (p : ProductType)
    (as_of : Option Nat) : Except String (Option TariffData × Option TariffData) :=
  match matchesKey df c p with
  | [] => .ok (none, none)
  | r :: rs => convertPair c p (resolvePair (sortByDate (r :: rs)) as_of)

/-- The records visible under the `as_of` filter: all matches when `as_of` is
absent, the matches dated `≤ as_of` otherwise. -/
def visibleKey (df : List TariffRow) (c : Country) (p : ProductType) :
    Option Nat → List TariffRow
  | none => matchesKey df c p
  | some d => (matchesKey df c p).filter fun (x : TariffRow) => decide (x.start_time ≤ d)

theorem pairwise_lt_of_le_of_ne {l : List TariffRow}
    (hle : l.Pairwise rowLe)
    (hne : l.Pairwise fun a b => a.start_time ≠ b.start_time) :
    l.Pairwise fun a b => a.start_time < b.start_time := by
  induction l with
  | nil => exact List.Pairwise.nil
  | cons a t ih =>
    rw [List.pairwise_cons] at hle hne ⊢
    exact ⟨fun b hb => Nat.lt_of_le_of_ne (hle.1 b hb) (hne.1 b hb), ih hle.2 hne.2⟩

theorem strict_getLast?_spec {l : List TariffRow}
    (hlt : l.Pairwise fun a b => a.start_time < b.start_time)
    {x : TariffRow} (hx : l.getLast? = some x) :
    x ∈ l ∧ ∀ u ∈ l.dropLast, u.start_time < x.start_time := by
  have hne : l ≠ [] := by intro h; rw [h] at hx; cases hx
  rw [List.getLast?_eq_getLast l hne] at hx
  injection hx with hx
  subst hx
  refine ⟨List.getLast_mem hne, ?_⟩
  have hp : List.Pairwise (fun a b => a.start_time < b.start_time)
      (l.dropLast ++ [l.getLast hne]) := by
    rw [List.dropLast_append_getLast hne]; exact hlt
  have h3 := (List.pairwise_append.mp hp).2.2
  intro u hu
  exact h3 u hu _ (List.mem_singleton.mpr rfl)

theorem strict_last_two {l : List TariffRow}
    (hlt : l.Pairwise fun a b => a.start_time < b.start_time)
    {cu pv : TariffRow} (hcu : l.getLast? = some cu)
    (hpv : l.dropLast.getLast? = some pv) :
    cu ∈ l ∧ pv ∈ l.dropLast ∧ pv.start_time < cu.start_time ∧
    ∀ u ∈ l, u.start_time < cu.start_time → u.start_time ≤ pv.start_time := by
  obtain ⟨hcum, hcumax⟩ := strict_getLast?_spec hlt hcu
  have hltd : l.dropLast.Pairwise fun a b => a.start_time < b.start_time :=
    List.Pairwise.sublist (List.dropLast_sublist l) hlt
  obtain ⟨hpvm, hpvmax⟩ := strict_getLast?_spec hltd hpv
  refine ⟨hcum, hpvm, hcumax pv hpvm, ?_⟩
  intro u hu hult
  have hne : l ≠ [] := by intro h; rw [h] at hcu; cases hcu
  have hgl : l.getLast hne = cu := by
    rw [List.getLast?_eq_getLast l hne] at hcu; injection hcu
  rw [← List.dropLast_append_getLast hne, List.mem_append] at hu
  rcases hu with hu | hu
  · have hne2 : l.dropLast ≠ [] := by intro h; rw [h] at hpv; cases hpv
    have hgl2 : l.dropLast.getLast hne2 = pv := by
      rw [List.getLast?_eq_getLast _ hne2] at hpv; injection hpv
    rw [← List.dropLast_append_getLast hne2, List.mem_append] at hu
    rcases hu with hu | hu
    · exact Nat.le_of_lt (hpvmax u hu)
    · rw [List.mem_singleton.mp hu, hgl2]
  · rw [List.mem_singleton.mp hu, hgl] at hult
    exact absurd hult (Nat.lt_irrefl _)

theorem mkTariffData_ok {c : Country} {p : ProductType} {rate : ℚ} {d : Nat}
    {t : TariffData} (h : mkTariffData c p rate d = .ok t) : t = ⟨c, p, rate, d⟩ := by
  unfold mkTariffData at h
  split at h
  · injection h with h; exact h.symm
  · cases h

theorem convertPair_ok_some {c : Country} {p : ProductType}
    {o1 o2 : Option TariffRow} {cur : TariffData} {prevO : Option TariffData}
    (h : convertPair c p (o1, o2) = .ok (some cur, prevO)) :
    ∃ cu, o1 = some cu ∧ cur = ⟨c, p, cu.current_tariff, cu.start_time⟩ ∧
      ((prevO = none ∧ o2 = none) ∨
        ∃ pv prev, o2 = some pv ∧ prevO = some prev ∧
          prev = ⟨c, p, pv.current_tariff, pv.start_time⟩) := by
  cases o1 with
  | none => cases h
  | some cu =>
    cases o2 with
    | none =>
      simp only [convertPair] at h
      cases hmk : mkTariffData c p cu.current_tariff cu.start_time with
      | error e => rw [hmk] at h; cases h
      | ok cd =>
        rw [hmk] at h
        injection h with h
        injection h with h1 h2
        injection h1 with h1
        exact ⟨cu, rfl, h1 ▸ mkTariffData_ok hmk, Or.inl ⟨h2.symm, rfl⟩⟩
    | some pv =>
      simp only [convertPair] at h
      cases hmk : mkTariffData c p cu.current_tariff cu.start_time with
      | error e => rw [hmk] at h; cases h
      | ok cd =>
        rw [hmk] at h
        cases hmk2 : mkTariffData c p pv.current_tariff pv.start_time with
        | error e => rw [hmk2] at h; cases h
        | ok pd =>
          rw [hmk2] at h
          injection h with h
          injection h with h1 h2
          injection h1 with h1
          exact ⟨cu, rfl, h1 ▸ mkTariffData_ok hmk,
            Or.inr ⟨pv, pd, rfl, h2.symm, mkTariffData_ok hmk2⟩⟩

/-- C2: whenever `get_tariff_with_history` returns a non-`None` previous
record (for a table whose matching records carry pairwise-distinct
`effective_date`s, the spec's uniqueness invariant), that previous record is
the one with the largest `effective_date` strictly below the selected current
record's, among the records visible under the same `as_of` filter; in
particular `previous.effective_date ≥ current.effective_date` never holds,
and `previous` is `None` whenever the selected current record is the earliest
for its key. -/
theorem C2_previous_record_spec (df : List TariffRow) (c : Country) (p : ProductType)
    (as_of : Option Nat)
    (huniq : (matchesKey df c p).Pairwise fun a b => a.start_time ≠ b.start_time) :
    (∀ cur prev, get_tariff_with_history df c p as_of = .ok (some cur, some prev) →
      prev.start_time < cur.start_time ∧
      (∃ x ∈ visibleKey df c p as_of,
        x.current_tariff = prev.current_tariff ∧ x.start_time = prev.start_time) ∧
      ∀ u ∈ visibleKey df c p as_of,
        u.start_time < cur.start_time → u.start_time ≤ prev.start_time) ∧
    (∀ cur prevO, get_tariff_with_history df c p as_of = .ok (some cur, prevO) →
      (∀ u ∈ matchesKey df c p, cur.start_time ≤ u.start_time) → prevO = none) := by
  have hvsub : ∀ x, x ∈ visibleKey df c p as_of → x ∈ matchesKey df c p := by
    cases as_of with
    | none => exact fun x hx => hx
    | some d => exact fun x hx => (List.filter_sublist _).subset hx
  have main : ∀ cur prev, get_tariff_with_history df c p as_of = .ok (some cur, some prev) →
      prev.start_time < cur.start_time ∧
      (∃ x ∈ visibleKey df c p as_of,
        x.current_tariff = prev.current_tariff ∧ x.start_time = prev.start_time) ∧
      ∀ u ∈ visibleKey df c p as_of,
        u.start_time < cur.start_time → u.start_time ≤ prev.start_time := by
    intro cur prev h
    cases hm : matchesKey df c p with
    | nil => rw [get_tariff_with_history.eq_def, hm] at h; cases h
    | cons r rs =>
      rw [get_tariff_with_history.eq_def, hm] at h
      have hperm : List.Perm (sortByDate (r :: rs)) (r :: rs) := List.perm_insertionSort rowLe _
      have hsle : (sortByDate (r :: rs)).Pairwise rowLe :=
        List.sorted_insertionSort rowLe (r :: rs)
      have hneq : (sortByDate (r :: rs)).Pairwise
          (fun a b => a.start_time ≠ b.start_time) :=
        (List.Perm.pairwise_iff (fun hab => Ne.symm hab) hperm).mpr (hm ▸ huniq)
      have hlt : (sortByDate (r :: rs)).Pairwise
          (fun a b => a.start_time < b.start_time) :=
        pairwise_lt_of_le_of_ne hsle hneq
      have hvis : visibleKey df c p as_of = matchesKey df c p ∨
          ∃ d, as_of = some d ∧ visibleKey df c p as_of =
            (matchesKey df c p).filter fun (x : TariffRow) => decide (x.start_time ≤ d) := by
        cases as_of with
        | none => exact Or.inl rfl
        | some d => exact Or.inr ⟨d, rfl, rfl⟩
      cases as_of with
      | none =>
        simp only [resolvePair] at h
        obtain ⟨cu, hcu, hcur, hrest⟩ := convertPair_ok_some h
        rcases hrest with ⟨hpnone, _⟩ | ⟨pv, prev', ho2, hprev', hprevEq⟩
        · cases hpnone
        · injection hprev' with hprev'
          subst hprev'
          subst hprevEq
          subst hcur
          have ho2' : (sortByDate (r :: rs)).dropLast.getLast? = some pv := by
            by_cases hlen : 1 < (sortByDate (r :: rs)).length
            · rw [if_pos hlen] at ho2; exact ho2
            · rw [if_neg hlen] at ho2; cases ho2
          obtain ⟨hcum, hpvm, hpvlt, hmax⟩ := strict_last_two hlt hcu ho2'
          refine ⟨hpvlt, ⟨pv, ?_, rfl, rfl⟩, ?_⟩
          · show pv ∈ visibleKey df c p none
            have : pv ∈ sortByDate (r :: rs) :=
              (List.dropLast_sublist _).subset hpvm
            simpa [visibleKey, hm] using hperm.mem_iff.mp this
          · intro u hu hud
            have hu' : u ∈ sortByDate (r :: rs) := by
              have : u ∈ (r :: rs) := by simpa [visibleKey, hm] using hu
              exact hperm.mem_iff.mpr this
            exact hmax u hu' hud
      | some d =>
        simp only [resolvePair] at h
        cases hv : (sortByDate (r :: rs)).filter
            (fun (x : TariffRow) => decide (x.start_time ≤ d)) with
        | nil =>
          rw [hv] at h
          simp only [resolveValid] at h
          obtain ⟨cu, hcu, hcur, hrest⟩ := convertPair_ok_some h
          rcases hrest with ⟨hpnone, _⟩ | ⟨pv, prev', ho2, hprev', hprevEq⟩
          · cases hpnone
          · cases ho2
        | cons v vs =>
          rw [hv] at h
          simp only [resolveValid] at h
          obtain ⟨cu, hcu, hcur, hrest⟩ := convertPair_ok_some h
          rcases hrest with ⟨hpnone, _⟩ | ⟨pv, prev', ho2, hprev', hprevEq⟩
          · cases hpnone
          · injection hprev' with hprev'
            subst hprev'
            subst hprevEq
            subst hcur
            have hltv : (v :: vs).Pairwise (fun a b => a.start_time < b.start_time) :=
              hv ▸ List.Pairwise.sublist (List.filter_sublist _) hlt
            obtain ⟨hcum, hpvm, hpvlt, hmax⟩ := strict_last_two hltv hcu ho2
            have hpermv : List.Perm (v :: vs) ((r :: rs).filter
                (fun (x : TariffRow) => decide (x.start_time ≤ d))) :=
              hv ▸ List.Perm.filter _ hperm
            refine ⟨hpvlt, ⟨pv, ?_, rfl, rfl⟩, ?_⟩
            · show pv ∈ visibleKey df c p (some d)
              have : pv ∈ v :: vs := (List.dropLast_sublist _).subset hpvm
              simpa [visibleKey, hm] using hpermv.mem_iff.mp this
            · intro u hu hud
              have hu' : u ∈ v :: vs := by
                have : u ∈ (r :: rs).filter
                    (fun (x : TariffRow) => decide (x.start_time ≤ d)) := by
                  simpa [visibleKey, hm] using hu
                exact hpermv.mem_iff.mpr this
              exact hmax u hu' hud
  refine ⟨main, ?_⟩
  intro cur prevO h hearliest
  cases prevO with
  | none => rfl
  | some prev =>
    obtain ⟨hlt, ⟨x, hx, _, hxd⟩, _⟩ := main cur prev h
    have hcx := hearliest x (hvsub x hx)
    rw [hxd] at hcx
    exact absurd (Nat.lt_of_le_of_lt hcx hlt) (Nat.lt_irrefl _)

/-- C2 (witness): the previous-record characterisation applied to the
concrete table `dfW` at key (China, Electronics) with no `as_of`: current is
the 2025-04-01 record and previous the 2025-01-01 one. -/
theorem C2_witness :
    (TariffData.start_time ⟨.china, .electronics, 0, 20250101⟩ <
      TariffData.start_time ⟨.china, .electronics, 1, 20250401⟩) ∧
    (∃ x ∈ visibleKey dfW .china .electronics none,
      x.current_tariff = TariffData.current_tariff ⟨.china, .electronics, 0, 20250101⟩ ∧
      x.start_time = TariffData.start_time ⟨.china, .electronics, 0, 20250101⟩) ∧
    ∀ u ∈ visibleKey dfW .china .electronics none,
      u.start_time < TariffData.start_time ⟨.china, .electronics, 1, 20250401⟩ →
      u.start_time ≤ TariffData.start_time ⟨.china, .electronics, 0, 20250101⟩ :=
  (C2_previous_record_spec dfW .china .electronics none (by decide)).1
    ⟨.china, .electronics, 1, 20250401⟩ ⟨.china, .electronics, 0, 20250101⟩ (by decide)

/-! ## `TariffResult.__init__` (`models.py` lines 55–101) -/

/-- A raised Python exception, split by kind: `TypeError` (e.g. `None * 100`)
versus a pydantic `ValidationError`. -/
inductive PyError where
  | typeError (site : String)
  | validationError (field : String)
deriving DecidableEq, Repr

/-- The message `str(e)` of a caught exception. -/
def PyError.msg : PyError → String
  | .typeError s => s
  | .validationError s => s

/-- Python's `round(q, n)` modelled on exact rationals (ties are resolved
half-up here rather than half-to-even; no claim in scope distinguishes the
two). -/
def roundTo (n : ℕ) (q : ℚ) : ℚ := (round (q * 10 ^ n) : ℤ) / 10 ^ n

/-- The keyword-argument dict passed to `TariffResult(**data)`.  For the
fields whose presence the constructor tests with `in data`, the outer
`Option` is key presence and the inner one a possibly-`None` value; fields
never presence-tested are modelled by their final value (for them an absent
key and an explicit `None` are indistinguishable, both becoming the pydantic
default `None`). -/
structure TRInput where
  country : Country
  product_type : ProductType
  tariff_rate : Option (Option ℚ) := none
  tariff_percentage : Option (Option ℚ) := none
  effective_date : Option Nat := none
  found : Bool := true
  message : Option String := none
  previous_rate : Option (Option ℚ) := none
  previous_percentage : Option (Option ℚ) := none
  previous_date : Option Nat := none
  rate_change : Option ℚ := none
  rate_change_percentage : Option ℚ := none
  trend : Option String := none
deriving DecidableEq, Repr

/-- The validated `TariffResult` pydantic model. -/
structure TariffResult where
  country : Country
  product_type : ProductType
  tariff_rate : ℚ
  tariff_percentage : Option ℚ
  effective_date : Option Nat
  found : Bool
  message : Option String
  previous_rate : Option ℚ
  previous_percentage : Option ℚ
  previous_date : Option Nat
  rate_change : Option ℚ
  rate_change_percentage : Option ℚ
  trend : Option String
deriving DecidableEq, Repr

/-- Pydantic validation of an `Optional[float]` field with `ge`/`le` bounds:
`None` is allowed, a value must lie in the range. -/
def checkOpt (name : String) (lo hi : ℚ) : Option (Option ℚ) → Except PyError (Option ℚ)
  | none => .ok none
  | some none => .ok none
  | some (some q) =>
    if lo ≤ q ∧ q ≤ hi then .ok (some q) else .error (.validationError name)

/-- The `super().__init__(**data)` tail of `TariffResult.__init__`: pydantic
field validation of the (possibly rewritten) dict and construction of the
validated model. -/
def trFinish (inp : TRInput) (tp pp : Option (Option ℚ))
    (changes : Option ℚ × Option ℚ × Option String) : Except PyError TariffResult :=
  match inp.tariff_rate with
  | none => .error (.validationError "tariff_rate: field required")
  | some none => .error (.validationError "tariff_rate: none is not an allowed value")
  | some (some tr) =>
    if 0 ≤ tr ∧ tr ≤ 1 then do
      let tpv ← checkOpt "tariff_percentage" 0 100 tp
      let prv ← checkOpt "previous_rate" 0 1 inp.previous_rate
      let ppv ← checkOpt "previous_percentage" 0 100 pp
      .ok
        { country := inp.country
          product_type := inp.product_type
          tariff_rate := tr
          tariff_percentage := tpv
          effective_date := inp.effective_date
          found := inp.found
          message := inp.message
          previous_rate := prv
          previous_percentage := ppv
          previous_date := inp.previous_date
          rate_change := changes.1
          rate_change_percentage := changes.2.1
          trend := changes.2.2 }
    else .error (.validationError "tariff_rate: range")

/-- `TariffResult.__init__` (`models.py` lines 73–101): derive
`tariff_percentage` / `previous_percentage` when the key is absent and the
corresponding rate key is present (`None * 100` raises `TypeError`); when
both `tariff_rate` and a non-`None` `previous_rate` are present, overwrite
`rate_change`, `rate_change_percentage` (only when `previous_rate > 0`) and
`trend`; finally run the pydantic field validation. -/
def trInit (inp : TRInput) : Except PyError TariffResult := do
  let tp : Option (Option ℚ) ←
    match inp.tariff_percentage, inp.tariff_rate with
    | none, some (some r) => .ok (some (some (roundTo 2 (r * 100))))
    | none, some none => .error (.typeError "unsupported operand: NoneType * int")
    | tpv, _ => .ok tpv
  let pp : Option (Option ℚ) ←
    match inp.previous_percentage, inp.previous_rate with
    | none, some (some r) => .ok (some (some (roundTo 2 (r * 100))))
    | none, some none => .error (.typeError "unsupported operand: NoneType * int")
    | ppv, _ => .ok ppv
  let changes : Option ℚ × Option ℚ × Option String ←
    match inp.tariff_rate, inp.previous_rate with
    | some curv?, some (some prevv) =>
      match curv? with
      | none => .error (.typeError "unsupported operand: NoneType - float")
      | some curv =>
        .ok (some (roundTo 4 (curv - prevv)),
          (if prevv > 0 then some (roundTo 2 ((curv - prevv) / prevv * 100))
           else inp.rate_change_percentage),
          some (if curv > prevv then "increased"
                else if curv < prevv then "decreased" else "unchanged"))
    | _, _ => .ok (inp.rate_change, inp.rate_change_percentage, inp.trend)
  trFinish inp tp pp changes

theorem trFinish_ok {inp : TRInput} {tp pp : Option (Option ℚ)}
    {changes : Option ℚ × Option ℚ × Option String} {r : TariffResult}
    (h : trFinish inp tp pp changes = .ok r) :
    r.rate_change = changes.1 ∧ r.rate_change_percentage = changes.2.1 ∧
    r.trend = changes.2.2 := by
  unfold trFinish at h
  split at h
  · cases h
  · cases h
  · split at h
    · simp only [bind, Except.bind] at h
      cases hc1 : checkOpt "tariff_percentage" 0 100 tp with
      | error e => rw [hc1] at h; cases h
      | ok tpv =>
        rw [hc1] at h
        cases hc2 : checkOpt "previous_rate" 0 1 inp.previous_rate with
        | error e => rw [hc2] at h; cases h
        | ok prv =>
          rw [hc2] at h
          cases hc3 : checkOpt "previous_percentage" 0 100 pp with
          | error e => rw [hc3] at h; cases h
          | ok ppv =>
            rw [hc3] at h
            injection h with h
            rw [← h]
            exact ⟨rfl, rfl, rfl⟩
    · cases h

/-- C9: supplying the `previous_rate` key with an explicit `None` value (and
no `previous_percentage` key) makes `TariffResult.__init__` raise a
`TypeError` (`None * 100`) instead of returning a result without the optional
historical fields. -/
theorem C9_previous_rate_none_raises (inp : TRInput)
    (hpr : inp.previous_rate = some none) (hpp : inp.previous_percentage = none) :
    ∃ s, trInit inp = .error (.typeError s) := by
  obtain ⟨c0, p0, tr0, tp0, ed0, f0, m0, pr0, pp0, pd0, rc0, rcp0, tn0⟩ := inp
  dsimp only at hpr hpp
  subst hpr; subst hpp
  unfold trInit
  simp only [bind, Except.bind]
  rcases tp0 with _ | tpv <;> rcases tr0 with _ | (_ | trv) <;> exact ⟨_, rfl⟩

/-- C9 (witness): the `TypeError` at a fully concrete constructor call. -/
def c9Input : TRInput :=
  { country := .china
    product_type := .toys
    tariff_rate := some (some 0)
    previous_rate := some none }

theorem C9_witness : ∃ s, trInit c9Input = .error (.typeError s) :=
  C9_previous_rate_none_raises c9Input rfl rfl

/-- C7 (counterexample): a constructor call with a resolved previous rate of
`0` (and current rate `1/20`) yields a result where `trend` and `rate_change`
are present but `rate_change_percentage` is absent — so "the trend field and
both change fields are present iff a previous record was resolved" fails: the
relative change is omitted when the previous rate is zero. -/
def c7Input : TRInput :=
  { country := .india
    product_type := .toys
    tariff_rate := some (some (1/20))
    previous_rate := some (some 0) }

/-- The result `trInit` produces on `c7Input`. -/
def c7Result : TariffResult :=
  { country := .india
    product_type := .toys
    tariff_rate := 1/20
    tariff_percentage := some 5
    effective_date := none
    found := true
    message := none
    previous_rate := some 0
    previous_percentage := some 0
    previous_date := none
    rate_change := some (1/20)
    rate_change_percentage := none
    trend := some "increased" }

theorem c7_eval : trInit c7Input = .ok c7Result := by
  unfold c7Input c7Result trInit trFinish
  simp only [bind, Except.bind]
  norm_num [roundTo, checkOpt, round_eq]

theorem C7_counterexample :
    ∃ r, trInit c7Input = .ok r ∧
      r.previous_rate = some 0 ∧ r.trend = some "increased" ∧
      r.rate_change = some (1/20) ∧ r.rate_change_percentage = none :=
  ⟨c7Result, c7_eval, rfl, rfl, rfl, rfl⟩

/-- C7 (amended): for a constructor call that does not itself supply `trend`,
`rate_change` or `rate_change_percentage` and that returns a result, `trend`
and the absolute change `rate_change` are present iff a non-`None`
`previous_rate` was supplied, while the relative change
`rate_change_percentage` is present iff additionally `previous_rate > 0`. -/
theorem C7_trend_change_presence (inp : TRInput) (r : TariffResult)
    (htrend : inp.trend = none) (hrc : inp.rate_change = none)
    (hrcp : inp.rate_change_percentage = none)
    (h : trInit inp = .ok r) :
    ((r.trend.isSome = true) ↔ ∃ q, inp.previous_rate = some (some q)) ∧
    ((r.rate_change.isSome = true) ↔ ∃ q, inp.previous_rate = some (some q)) ∧
    ((r.rate_change_percentage.isSome = true) ↔
      ∃ q, inp.previous_rate = some (some q) ∧ 0 < q) := by
  obtain ⟨c0, p0, tr0, tp0, ed0, f0, m0, pr0, pp0, pd0, rc0, rcp0, tn0⟩ := inp
  dsimp only at htrend hrc hrcp h ⊢
  subst htrend; subst hrc; subst hrcp
  unfold trInit at h
  simp only [bind, Except.bind] at h
  rcases pr0 with _ | pr1
  · rcases tp0 with _ | tpv <;> rcases tr0 with _ | (_ | trv) <;>
      rcases pp0 with _ | ppv <;> dsimp only at h <;>
      first
        | exact Except.noConfusion h
        | (obtain ⟨h1, h2, h3⟩ := trFinish_ok h; rw [h1, h2, h3]; simp)
  · rcases pr1 with _ | prv
    · rcases tp0 with _ | tpv <;> rcases tr0 with _ | (_ | trv) <;>
        rcases pp0 with _ | ppv <;> dsimp only at h <;>
        first
          | exact Except.noConfusion h
          | (obtain ⟨h1, h2, h3⟩ := trFinish_ok h; rw [h1, h2, h3]; simp)
    · rcases tp0 with _ | tpv <;> rcases tr0 with _ | (_ | trv) <;>
        rcases pp0 with _ | ppv <;> dsimp only at h <;>
        first
          | exact Except.noConfusion h
          | (obtain ⟨h1, h2, h3⟩ := trFinish_ok h
             rw [h1, h2, h3]
             refine ⟨by simp, by simp, ?_⟩
             by_cases hq : (0:ℚ) < prv
             · simp [hq]
             · simp [hq])

/-- C7 (witness): the presence characterisation applied to the concrete
constructor call `c7Input` and its result `c7Result`. -/
theorem C7_witness :
    ((TariffResult.trend c7Result).isSome = true ↔
      ∃ q, TRInput.previous_rate c7Input = some (some q)) ∧
    ((TariffResult.rate_change c7Result).isSome = true ↔
      ∃ q, TRInput.previous_rate c7Input = some (some q)) ∧
    ((TariffResult.rate_change_percentage c7Result).isSome = true ↔
      ∃ q, TRInput.previous_rate c7Input = some (some q) ∧ 0 < q) :=
  C7_trend_change_presence c7Input c7Result rfl rfl rfl c7_eval

/-! ## `lookup_tariff` (`tariff_lookup.py` lines 18–102) -/

/-- The keyword arguments of the "no tariff data" `TariffResult` constructor
call in `lookup_tariff`. -/
def notFoundInput (c : Country) (p : ProductType) : TRInput :=
  { country := c
    product_type := p
    tariff_rate := some (some 0)
    effective_date := none
    found := false
    message := some ("No tariff data found for " ++ p.value ++ " from " ++ c.value) }

/-- The `try` body of `TariffLookupAgent.lookup_tariff`: resolve via
`get_tariff_with_history` (or `get_tariff_rate` when `include_history` is
false) and build the `TariffResult`; any raised error propagates as
`Except.error` with its message. -/
def lookupTariffTry (df : List TariffRow) (c : Country) (p : ProductType)
    (as_of : Option Nat) (include_history : Bool) : Except String TariffResult :=
  if include_history then
    match get_tariff_with_history df c p as_of with
    | .error e => .error e
    | .ok (some currentData, previousData) =>
      match trInit
        { country := currentData.country
          product_type := currentData.product_type
          tariff_rate := some (some currentData.current_tariff)
          effective_date := some currentData.start_time
          found := true
          message := none
          previous_rate := previousData.map (fun pd => some pd.current_tariff)
          previous_date := previousData.map (fun pd => pd.start_time) } with
      | .error e => .error e.msg
      | .ok r => .ok r
    | .ok (none, _) =>
      match trInit (notFoundInput c p) with
      | .error e => .error e.msg
      | .ok r => .ok r
  else
    match get_tariff_rate df c p as_of with
    | .error e => .error e
    | .ok (some td) =>
      match trInit
        { country := td.country
          product_type := td.product_type
          tariff_rate := some (some td.current_tariff)
          effective_date := some td.start_time
          found := true
          message := none } with
      | .error e => .error e.msg
      | .ok r => .ok r
    | .ok none =>
      match trInit (notFoundInput c p) with
      | .error e => .error e.msg
      | .ok r => .ok r

/-- `TariffLookupAgent.lookup_tariff` with its `except` fallback: a caught
exception is turned into a found=False result carrying the error message. -/
def lookup_tariff (df : List TariffRow) (c : Country) (p : ProductType)
    (as_of : Option Nat) (include_history : Bool) : Except String TariffResult :=
  match lookupTariffTry df c p as_of include_history with
  | .ok r => .ok r
  | .error e =>
    match trInit
      { country := c
        product_type := p
        tariff_rate := some (some 0)
        effective_date := none
        found := false
        message := some ("Error looking up tariff: " ++ e) } with
    | .error e2 => .error e2.msg
    | .ok r => .ok r

theorem trInit_notFound (c : Country) (p : ProductType) :
    trInit (notFoundInput c p) =
      .ok ⟨c, p, 0, some 0, none, false,
        some ("No tariff data found for " ++ p.value ++ " from " ++ c.value),
        none, none, none, none, none, none⟩ := by
  unfold notFoundInput trInit trFinish
  simp only [bind, Except.bind]
  norm_num [roundTo, checkOpt, round_eq]

/-- C10: for a key with zero matching records, `lookup_tariff` never raises —
for either value of `include_history` it returns a result with `found=False`,
the descriptive not-found message, no `effective_date`, and the sentinel
values `tariff_rate = 0` and `tariff_percentage = 0`. -/
theorem C10_lookup_miss (df : List TariffRow) (c : Country) (p : ProductType)
    (as_of : Option Nat) (include_history : Bool)
    (hempty : matchesKey df c p = []) :
    ∃ r, lookup_tariff df c p as_of include_history = .ok r ∧
      r.found = false ∧
      r.message = some ("No tariff data found for " ++ p.value ++ " from " ++ c.value) ∧
      r.effective_date = none ∧ r.tariff_rate = 0 ∧ r.tariff_percentage = some 0 := by
  cases include_history with
  | true =>
    have hg : get_tariff_with_history df c p as_of = .ok (none, none) := by
      rw [get_tariff_with_history.eq_def, hempty]
    unfold lookup_tariff lookupTariffTry
    rw [if_pos rfl, hg, trInit_notFound]
    exact ⟨_, rfl, rfl, rfl, rfl, rfl, rfl⟩
  | false =>
    have hg : get_tariff_rate df c p as_of = .ok none := by
      simp [get_tariff_rate, hempty]
    unfold lookup_tariff lookupTariffTry
    rw [if_neg (by simp), hg, trInit_notFound]
    exact ⟨_, rfl, rfl, rfl, rfl, rfl, rfl⟩

/-- C10 (witness): the not-found behaviour on the concrete table `dfW` at the
unmatched key (USA, Home). -/
theorem C10_witness :
    matchesKey dfW .usa .home = [] ∧
    ∃ r, lookup_tariff dfW .usa .home none true = .ok r ∧
      r.found = false ∧
      r.message = some ("No tariff data found for " ++ ProductType.value .home ++
        " from " ++ Country.value .usa) ∧
      r.effective_date = none ∧ r.tariff_rate = 0 ∧ r.tariff_percentage = some 0 :=
  ⟨by decide, C10_lookup_miss dfW .usa .home none true (by decide)⟩

/-! ## The dynamic pipeline engine (`dynamic_pipeline.py`) -/

/-- The `TariffQuery` model (`models.py` lines 37–44) as the engine sees it:
`use_enum_values` stores the intent as its string value. -/
structure TariffQueryM where
  country : Option Country := none
  product_type : Option ProductType := none
  intent : String := "tariff_rate"
  original_query : String := ""
deriving DecidableEq, Repr

/-- The `AgentState` fields the engine loop reads or writes (`models.py`
lines 104–127); timing fields are omitted (wall-clock time is outside the
model). -/
structure AgentState where
  query : String
  parsed_query : Option TariffQueryM := none
  response : Option String := none
  error : Option String := none
  step : String := "initial"
  execution_path : List String := []
  current_node : String := "start"
deriving DecidableEq, Repr

/-- Python truthiness of the `Optional[str]` field `state.error`: `None` and
the empty string are falsy. -/
def truthy : Option String → Bool
  | none => false
  | some s => !(s == "")

/-- A stage function; `Except.error` models the function raising, with the
raised exception's message (a raising stage's partial writes to the state are
not modelled — no claim in scope reads them). -/
def NodeFunc : Type := AgentState → Except String AgentState

/-- `_start_node` (`dynamic_pipeline.py` lines 43–49). -/
def startNode : NodeFunc := fun s =>
  .ok { s with current_node := "start", execution_path := ["start"], step := "started" }

/-- `_end_node` (`dynamic_pipeline.py` lines 51–61); the execution-time sum
is outside the model. -/
def endNode : NodeFunc := fun s =>
  .ok { s with current_node := "end", step := "completed" }

/-- The guidance text built by `error_handler_node` (`error_handler.py`
lines 24–36). -/
def errorHandlerResponse (e : Option String) : String :=
  "I encountered an issue processing your query: " ++
    (if truthy e then e.getD "" else "Unknown error") ++
    "\n\n🔧 **Troubleshooting Tips:**\n" ++
    "• Make sure you're asking about supported countries: China, Vietnam, Mexico, India, USA\n" ++
    "• Supported products: Electronics, Apparel, Home, Toys\n" ++
    "• Try rephrasing your question more clearly\n\n" ++
    "💡 **Example queries that work:**\n" ++
    "• \"What's the tariff rate for Electronics from China?\"\n" ++
    "• \"Compare tariff rates for Toys between Vietnam and India\"\n" ++
    "• \"How much tariff is charged on Apparel from Mexico?\"\n\n" ++
    "Please try again with a clearer question, and I'll do my best to help!"

/-- `error_handler_node` (`error_handler.py` lines 9–53): set the guidance
response, mark the step handled and clear the error. -/
def errorHandlerNode : NodeFunc := fun s =>
  .ok { s with response := some (errorHandlerResponse s.error),
               step := "error_handled", error := none }

/-- `parse_query_node` (`query_parser.py` lines 210–234) with the LLM
classification call abstracted as `classify` (the agent's own fallback makes
`parse_query` total, so `classify` is a plain function). -/
def parseQueryNode (classify : String → TariffQueryM) : NodeFunc := fun s =>
  .ok { s with parsed_query := some (classify s.query), step := "parsed", error := none }

/-- The `node_registry` of `DynamicLangGraphPipeline.__init__`
(`dynamic_pipeline.py` lines 21–30); the four stages whose bodies are
LLM- or data-bound agents are parameters. -/
def mkRegistry (classify : String → TariffQueryM)
    (lookupN summaryN formatterN routerN : NodeFunc) : String → Option NodeFunc :=
  fun name =>
    if name = "start" then some startNode
    else if name = "parse_query" then some (parseQueryNode classify)
    else if name = "tariff_lookup" then some lookupN
    else if name = "response_formatter" then some formatterN
    else if name = "data_summary" then some summaryN
    else if name = "error_handler" then some errorHandlerNode
    else if name = "router" then some routerN
    else if name = "end" then some endNode
    else none

/-- `DynamicLangGraphPipeline.execute_node` (`dynamic_pipeline.py` lines
63–101): unknown names set `state.error`; a raising node function is caught
and converted into `state.error`; on success the node name is appended to the
execution path when not already a member. -/
def execute_node (reg : String → Option NodeFunc) (state : AgentState)
    (name : String) : AgentState :=
  match reg name with
  | none => { state with error := some ("Unknown node: " ++ name) }
  | some f =>
    let st1 := { state with current_node := name }
    match f st1 with
    | .ok st2 =>
      if name ∈ st2.execution_path then st2
      else { st2 with execution_path := st2.execution_path ++ [name] }
    | .error e =>
      { st1 with error := some ("Node " ++ name ++ " failed: " ++ e), step := "error" }

/-- The inline next-node selection of `run_dynamic_analysis`
(`dynamic_pipeline.py` lines 139–159), as a function of the current node and
state. -/
def routeNext (current : String) (st : AgentState) : String :=
  if current = "start" then "parse_query"
  else if current = "parse_query" then
    match st.parsed_query with
    | some q =>
      if q.intent ≠ "" then
        if q.intent = "tariff_rate" ∨ q.intent = "comparison" then "tariff_lookup"
        else if q.intent = "general_info" then "data_summary"
        else "error_handler"
      else "error_handler"
    | none => "error_handler"
  else if current = "tariff_lookup" ∨ current = "data_summary" then "response_formatter"
  else if current = "response_formatter" then "end"
  else if current = "error_handler" then "end"
  else "end"

/-- The loop body's next-node choice: the error short-circuit takes priority
over the normal routing. -/
def nextNode (route : String → AgentState → String) (current : String)
    (st : AgentState) : String :=
  if truthy st.error = true ∧ current ≠ "error_handler" then "error_handler"
  else route current st

/-- The `while current_node != "end" and iteration < max_iterations` loop of
`run_dynamic_analysis` (`dynamic_pipeline.py` lines 124–159), with
`fuel = max_iterations - iteration` (starting at 20) and the error
short-circuit checked before the normal routing; the trace records each
executed node with the state right after its execution.  The routing is a
parameter so that the loop can be studied under any routing outcome;
`routeNext` is the code's own routing. -/
def engineLoop (reg : String → Option NodeFunc) (route : String → AgentState → String) :
    Nat → String → AgentState → AgentState × String × List (String × AgentState)
  | 0, current, state => (state, current, [])
  | n + 1, current, state =>
    if current = "end" then (state, current, [])
    else
      let st := execute_node reg state current
      match engineLoop reg route n (nextNode route current st) st with
      | (s, cfin, tr) => (s, cfin, (current, st) :: tr)

/-- The observable outcome of `run_dynamic_analysis`: the returned dict's
fields plus the loop's exit node, the state at loop exit and the execution
trace. -/
structure RunResult where
  query : String
  response : Option String
  error : Option String
  step : String
  execution_path : List String
  current_node : String
  loop_exit : String
  loop_state : AgentState
  trace : List (String × AgentState)
deriving DecidableEq, Repr

/-- `run_dynamic_analysis` (`dynamic_pipeline.py` lines 103–185): run the
loop from `start` with the 20-iteration ceiling, then execute the `end` node
and read the result off the final state. -/
def run_dynamic_analysis (reg : String → Option NodeFunc)
    (route : String → AgentState → String) (query : String) : RunResult :=
  let state0 : AgentState := { query := query, current_node := "start", step := "initial" }
  let out := engineLoop reg route 20 "start" state0
  let final := execute_node reg out.1 "end"
  { query := final.query
    response := final.response
    error := final.error
    step := final.step
    execution_path := final.execution_path
    current_node := final.current_node
    loop_exit := out.2.1
    loop_state := out.1
    trace := out.2.2 }

/-- Bound on the number of loop iterations still possible from a given
current node under the code's own routing (`routeNext` plus the error
short-circuit). -/
def depth (s : String) : Nat :=
  if s = "start" then 5
  else if s = "parse_query" then 4
  else if s = "tariff_lookup" ∨ s = "data_summary" then 3
  else if s = "response_formatter" then 2
  else if s = "error_handler" then 1
  else if s = "end" then 0
  else 2

theorem depth_pos (s : String) (h : s ≠ "end") : 1 ≤ depth s := by
  unfold depth
  split_ifs <;> omega

theorem depth_two (s : String) (h : s ≠ "end") (h' : s ≠ "error_handler") :
    2 ≤ depth s := by
  unfold depth
  split_ifs <;> omega


theorem depth_routeNext (current : String) (st : AgentState) (h : current ≠ "end") :
    depth (routeNext current st) + 1 ≤ depth current := by
  by_cases h1 : current = "start"
  · subst h1
    exact (by decide : depth "parse_query" + 1 ≤ depth "start")
  by_cases h2 : current = "parse_query"
  · subst h2
    cases hq : st.parsed_query with
    | none =>
      have hr : routeNext "parse_query" st = "error_handler" := by
        simp [routeNext, hq]
      rw [hr]; decide
    | some q =>
      have hr : routeNext "parse_query" st = "tariff_lookup" ∨
          routeNext "parse_query" st = "data_summary" ∨
          routeNext "parse_query" st = "error_handler" := by
        simp only [routeNext, hq]
        split_ifs <;> simp
      rcases hr with hr | hr | hr <;> rw [hr] <;> decide
  by_cases h3 : current = "tariff_lookup" ∨ current = "data_summary"
  · have hr : routeNext current st = "response_formatter" := by
      rcases h3 with h3 | h3 <;> subst h3 <;> rfl
    rw [hr]
    rcases h3 with h3 | h3 <;> subst h3 <;> decide
  by_cases h4 : current = "response_formatter"
  · subst h4
    exact (by decide : depth "end" + 1 ≤ depth "response_formatter")
  by_cases h5 : current = "error_handler"
  · subst h5
    exact (by decide : depth "end" + 1 ≤ depth "error_handler")
  · have hr : routeNext current st = "end" := by
      simp only [routeNext, if_neg h1, if_neg h2, if_neg h3, if_neg h4, if_neg h5]
    rw [hr]
    simpa using depth_pos current h

theorem nextNode_pos (route : String → AgentState → String) (c : String)
    (st : AgentState) (h : truthy st.error = true ∧ c ≠ "error_handler") :
    nextNode route c st = "error_handler" := if_pos h

theorem nextNode_neg (route : String → AgentState → String) (c : String)
    (st : AgentState) (h : ¬(truthy st.error = true ∧ c ≠ "error_handler")) :
    nextNode route c st = route c st := if_neg h

theorem engineLoop_succ_proj (reg : String → Option NodeFunc)
    (route : String → AgentState → String) (n : Nat) (c : String) (s : AgentState)
    (hc : c ≠ "end") :
    engineLoop reg route (n + 1) c s =
      ((engineLoop reg route n (nextNode route c (execute_node reg s c))
          (execute_node reg s c)).1,
       (engineLoop reg route n (nextNode route c (execute_node reg s c))
          (execute_node reg s c)).2.1,
       (c, execute_node reg s c) ::
         (engineLoop reg route n (nextNode route c (execute_node reg s c))
            (execute_node reg s c)).2.2) := by
  simp only [engineLoop, if_neg hc]

theorem engineLoop_end (reg : String → Option NodeFunc)
    (route : String → AgentState → String) (n : Nat) (s : AgentState) :
    engineLoop reg route (n + 1) "end" s = (s, "end", []) := rfl

/-- The loop body's error short-circuit condition as a Boolean on a trace
entry. -/
def needsRedirect (nm : String) (st : AgentState) : Bool :=
  decide (nm ≠ "error_handler") && truthy st.error

/-- The C4 trace property: every executed stage other than the error handler
that leaves a truthy error is immediately followed by the error handler (a
final such stage with no successor counts as a violation). -/
def redirectOkB : List (String × AgentState) → Bool
  | [] => true
  | [e] => !(needsRedirect e.1 e.2)
  | e :: e' :: rest =>
    (!(needsRedirect e.1 e.2) || decide (e'.1 = "error_handler")) &&
      redirectOkB (e' :: rest)

theorem engineLoop_length (reg : String → Option NodeFunc)
    (route : String → AgentState → String) :
    ∀ n current state, (engineLoop reg route n current state).2.2.length ≤ n := by
  intro n
  induction n with
  | zero => intro current state; simp [engineLoop]
  | succ n ih =>
    intro current state
    by_cases hend : current = "end"
    · subst hend; simp [engineLoop]
    · rw [engineLoop_succ_proj reg route n current state hend]
      simp only [List.length_cons]
      exact Nat.succ_le_succ (ih _ _)

theorem engineLoop_head (reg : String → Option NodeFunc)
    (route : String → AgentState → String) (n : Nat) (c : String) (s : AgentState)
    (hn : 1 ≤ n) (hc : c ≠ "end") :
    ∃ st' tl, (engineLoop reg route n c s).2.2 = (c, st') :: tl := by
  cases n with
  | zero => omega
  | succ m =>
    rw [engineLoop_succ_proj reg route m c s hc]
    exact ⟨_, _, rfl⟩

theorem engineLoop_routeNext_spec (reg : String → Option NodeFunc) :
    ∀ n current state, depth current ≤ n →
      (engineLoop reg routeNext n current state).2.1 = "end" ∧
      (engineLoop reg routeNext n current state).2.2.length ≤ depth current ∧
      redirectOkB (engineLoop reg routeNext n current state).2.2 = true := by
  intro n
  induction n with
  | zero =>
    intro current state h
    have hcur : current = "end" := by
      by_contra hne
      have := depth_pos current hne
      omega
    subst hcur
    exact ⟨rfl, by simp [engineLoop], by simp [engineLoop, redirectOkB]⟩
  | succ n ih =>
    intro current state h
    by_cases hend : current = "end"
    · subst hend
      refine ⟨by simp [engineLoop], by simp [engineLoop], by simp [engineLoop, redirectOkB]⟩
    · have hdpos : 1 ≤ depth current := depth_pos current hend
      by_cases hred : truthy (execute_node reg state current).error = true ∧
          current ≠ "error_handler"
      · have hd2 : 2 ≤ depth current := depth_two current hend hred.2
        have hn1 : depth "error_handler" ≤ n := by
          have hde : depth "error_handler" = 1 := by decide
          omega
        obtain ⟨ih1, ih2, ih3⟩ := ih "error_handler" (execute_node reg state current) hn1
        have heq := engineLoop_succ_proj reg routeNext n current state hend
        rw [nextNode_pos routeNext current (execute_node reg state current) hred] at heq
        rw [heq]
        refine ⟨ih1, ?_, ?_⟩
        · simp only [List.length_cons]
          have hde : depth "error_handler" = 1 := by decide
          omega
        · obtain ⟨st', tl, htr⟩ :=
            engineLoop_head reg routeNext n "error_handler"
              (execute_node reg state current) (by omega) (by decide)
          rw [htr]
          rw [htr] at ih3
          simp only [redirectOkB]
          simp [ih3]
      · have hnext := depth_routeNext current (execute_node reg state current) hend
        have hn1 : depth (routeNext current (execute_node reg state current)) ≤ n := by
          omega
        obtain ⟨ih1, ih2, ih3⟩ :=
          ih (routeNext current (execute_node reg state current))
            (execute_node reg state current) hn1
        have heq := engineLoop_succ_proj reg routeNext n current state hend
        rw [nextNode_neg routeNext current (execute_node reg state current) hred] at heq
        rw [heq]
        have hnr : needsRedirect current (execute_node reg state current) = false := by
          unfold needsRedirect
          rcases Decidable.not_and_iff_or_not.mp hred with hx | hx
          · simp [Bool.and_eq_false_iff, hx]
          · have : current = "error_handler" := Decidable.not_not.mp hx
            simp [this]
        refine ⟨ih1, ?_, ?_⟩
        · simp only [List.length_cons]
          omega
        · cases htr : (engineLoop reg routeNext n
              (routeNext current (execute_node reg state current))
              (execute_node reg state current)).2.2 with
          | nil => simp [redirectOkB, hnr]
          | cons e' tl =>
            rw [htr] at ih3
            simp [redirectOkB, hnr, ih3]

theorem execute_node_end_preserves_error (classify : String → TariffQueryM)
    (lookupN summaryN formatterN routerN : NodeFunc) (st : AgentState) :
    (execute_node (mkRegistry classify lookupN summaryN formatterN routerN) st "end").error
      = st.error := by
  have hr : mkRegistry classify lookupN summaryN formatterN routerN "end" = some endNode := rfl
  unfold execute_node
  rw [hr]
  dsimp only [endNode]
  split <;> rfl

/-- C3 (amended): the engine loop performs at most 20 stage invocations
before reaching `end` for any routing behaviour (and at most 5 under the
code's own routing), so a cyclic routing outcome cannot make it hang; but
when the iteration ceiling forces the transition to `end`, the final error is
exactly the error the loop left — no internal "routing did not converge"
fault is ever set. -/
theorem C3_iteration_ceiling (classify : String → TariffQueryM)
    (lookupN summaryN formatterN routerN : NodeFunc)
    (route : String → AgentState → String) (query : String) :
    (run_dynamic_analysis (mkRegistry classify lookupN summaryN formatterN routerN)
        route query).trace.length ≤ 20 ∧
    (run_dynamic_analysis (mkRegistry classify lookupN summaryN formatterN routerN)
        route query).error =
      (run_dynamic_analysis (mkRegistry classify lookupN summaryN formatterN routerN)
        route query).loop_state.error ∧
    (run_dynamic_analysis (mkRegistry classify lookupN summaryN formatterN routerN)
        routeNext query).trace.length ≤ 5 := by
  refine ⟨?_, ?_, ?_⟩
  · exact engineLoop_length _ _ 20 "start" _
  · exact execute_node_end_preserves_error classify lookupN summaryN formatterN routerN _
  · have h := engineLoop_routeNext_spec
      (mkRegistry classify lookupN summaryN formatterN routerN) 20 "start"
      { query := query, current_node := "start", step := "initial" } (by decide)
    have h5 : depth "start" = 5 := by decide
    have := h.2.1
    rw [h5] at this
    exact this

/-- A classification stub and inert stage bodies for concrete engine runs. -/
def classifyTriv : String → TariffQueryM := fun q => { original_query := q }

def nodeId : NodeFunc := fun s => .ok s

def regTriv : String → Option NodeFunc :=
  mkRegistry classifyTriv nodeId nodeId nodeId nodeId

def cyclicRoute : String → AgentState → String := fun _ _ => "start"

/-- C3 (counterexample): under a deliberately cyclic routing outcome the loop
exits at the 20-iteration ceiling (the loop's exit node is not `end`), yet
the returned `error` is `None` — no "routing did not converge" fault is set,
refuting that part of the claim. -/
theorem C3_counterexample :
    (run_dynamic_analysis regTriv cyclicRoute "q").loop_exit ≠ "end" ∧
    (run_dynamic_analysis regTriv cyclicRoute "q").trace.length = 20 ∧
    (run_dynamic_analysis regTriv cyclicRoute "q").error = none := by
  refine ⟨?_, ?_, ?_⟩ <;> decide

/-- C4: in every run under the code's routing, any executed stage other than
the error handler that leaves a truthy `state.error` (which is how both a
raised exception and a set error surface) is immediately followed by the
error handler; a raising stage is caught at the engine boundary and converted
into `state.error` rather than propagated; an unknown stage name sets
`state.error` the same way (and hence triggers the same redirect). -/
theorem C4_error_short_circuit (classify : String → TariffQueryM)
    (lookupN summaryN formatterN routerN : NodeFunc) (query : String) :
    redirectOkB (run_dynamic_analysis
        (mkRegistry classify lookupN summaryN formatterN routerN)
        routeNext query).trace = true ∧
    (∀ (reg : String → Option NodeFunc) (state : AgentState) (name : String)
        (f : NodeFunc) (e : String),
      reg name = some f → f { state with current_node := name } = .error e →
      (execute_node reg state name).error =
        some ("Node " ++ name ++ " failed: " ++ e)) ∧
    (∀ (reg : String → Option NodeFunc) (state : AgentState) (name : String),
      reg name = none →
      (execute_node reg state name).error = some ("Unknown node: " ++ name)) := by
  refine ⟨?_, ?_, ?_⟩
  · exact (engineLoop_routeNext_spec
      (mkRegistry classify lookupN summaryN formatterN routerN) 20 "start"
      { query := query, current_node := "start", step := "initial" } (by decide)).2.2
  · intro reg state name f e hreg hf
    unfold execute_node
    rw [hreg]
    dsimp only
    rw [hf]
  · intro reg state name h
    unfold execute_node
    rw [h]

def formatterBoom : NodeFunc := fun _ => .error "boom"

def regBoom : String → Option NodeFunc :=
  mkRegistry classifyTriv nodeId nodeId formatterBoom nodeId

/-- C4 (witness): the exception-to-error conversion and the unknown-node
error at concrete inputs. -/
theorem C4_witness :
    (execute_node regBoom { query := "q" } "response_formatter").error =
      some ("Node " ++ "response_formatter" ++ " failed: " ++ "boom") ∧
    (execute_node regBoom { query := "q" } "bogus").error =
      some ("Unknown node: " ++ "bogus") :=
  ⟨(C4_error_short_circuit classifyTriv nodeId nodeId formatterBoom nodeId "q").2.1
      regBoom { query := "q" } "response_formatter" formatterBoom "boom" rfl rfl,
   (C4_error_short_circuit classifyTriv nodeId nodeId formatterBoom nodeId "q").2.2
      regBoom { query := "q" } "bogus" rfl⟩

/-- C6 (amended): after a successful stage execution the engine appends the
stage name to `state.execution_path` exactly when the name is not already a
member of the whole path — not merely when it is not the last entry; a stage
revisited non-adjacently is therefore NOT appended a second time. -/
theorem C6_path_membership_append (reg : String → Option NodeFunc)
    (state : AgentState) (name : String) (f : NodeFunc) (st2 : AgentState)
    (hreg : reg name = some f)
    (hok : f { state with current_node := name } = .ok st2) :
    (execute_node reg state name).execution_path =
      (if name ∈ st2.execution_path then st2.execution_path
       else st2.execution_path ++ [name]) := by
  unfold execute_node
  rw [hreg]
  dsimp only
  rw [hok]
  split
  · rename_i st2' heq
    injection heq with heq
    subst heq
    split <;> rfl
  · rename_i e heq
    exact Except.noConfusion heq

def c6State : AgentState :=
  { query := "q"
    execution_path := ["error_handler", "parse_query"]
    current_node := "parse_query" }

/-- C6 (counterexample): executing `error_handler` on a state whose path is
`[error_handler, parse_query]` — a non-adjacent revisit, the last entry being
`parse_query` — leaves the path unchanged, refuting the claim that a stage is
appended whenever it is not the last entry. -/
theorem C6_counterexample :
    List.getLast? (AgentState.execution_path c6State) ≠ some "error_handler" ∧
    (execute_node regTriv c6State "error_handler").execution_path =
      ["error_handler", "parse_query"] := by
  exact ⟨by decide, rfl⟩

def c6St2 : AgentState :=
  { query := "q"
    response := some (errorHandlerResponse none)
    error := none
    step := "error_handled"
    execution_path := ["error_handler", "parse_query"]
    current_node := "error_handler" }

/-- C6 (witness): the membership-append characterisation at the concrete
revisit of `error_handler`. -/
theorem C6_witness :
    (execute_node regTriv c6State "error_handler").execution_path =
      (if "error_handler" ∈ c6St2.execution_path then c6St2.execution_path
       else c6St2.execution_path ++ ["error_handler"]) :=
  C6_path_membership_append regTriv c6State "error_handler" errorHandlerNode c6St2
    rfl rfl

/-- C8: for every query whose classification yields intent `unsupported`, the
run's execution path is exactly `[start, parse_query, error_handler, end]`,
the response is a non-empty guidance string, and the returned error is `None`
(consumed by the error handler). -/
theorem C8_unsupported_intent (classify : String → TariffQueryM)
    (lookupN summaryN formatterN routerN : NodeFunc) (query : String)
    (hint : (classify query).intent = "unsupported") :
    (run_dynamic_analysis (mkRegistry classify lookupN summaryN formatterN routerN)
        routeNext query).execution_path =
      ["start", "parse_query", "error_handler", "end"] ∧
    (∃ resp, (run_dynamic_analysis
        (mkRegistry classify lookupN summaryN formatterN routerN)
        routeNext query).response = some resp ∧ resp ≠ "") ∧
    (run_dynamic_analysis (mkRegistry classify lookupN summaryN formatterN routerN)
        routeNext query).error = none := by
  rcases hcq : classify query with ⟨qc, qp, qi, qo⟩
  rw [hcq] at hint
  dsimp only at hint
  subst hint
  have hrun : run_dynamic_analysis
      (mkRegistry classify lookupN summaryN formatterN routerN) routeNext query =
      { query := query
        response := some (errorHandlerResponse none)
        error := none
        step := "completed"
        execution_path := ["start", "parse_query", "error_handler", "end"]
        current_node := "end"
        loop_exit := "end"
        loop_state :=
          { query := query
            parsed_query := some ⟨qc, qp, "unsupported", qo⟩
            response := some (errorHandlerResponse none)
            error := none
            step := "error_handled"
            execution_path := ["start", "parse_query", "error_handler"]
            current_node := "error_handler" }
        trace :=
          [("start",
            { query := query, parsed_query := none, response := none, error := none,
              step := "started", execution_path := ["start"], current_node := "start" }),
           ("parse_query",
            { query := query, parsed_query := some ⟨qc, qp, "unsupported", qo⟩,
              response := none, error := none, step := "parsed",
              execution_path := ["start", "parse_query"], current_node := "parse_query" }),
           ("error_handler",
            { query := query, parsed_query := some ⟨qc, qp, "unsupported", qo⟩,
              response := some (errorHandlerResponse none), error := none,
              step := "error_handled",
              execution_path := ["start", "parse_query", "error_handler"],
              current_node := "error_handler" })] } := by
    unfold run_dynamic_analysis
    dsimp only
    rw [show (20 : Nat) = 19 + 1 from rfl,
      engineLoop_succ_proj _ _ _ _ _ (by decide : ¬("start" : String) = "end")]
    have h1 : execute_node (mkRegistry classify lookupN summaryN formatterN routerN)
        { query := query, current_node := "start", step := "initial" } "start" =
        { query := query, parsed_query := none, response := none, error := none,
          step := "started", execution_path := ["start"], current_node := "start" } := rfl
    rw [h1]
    rw [show nextNode routeNext "start"
        { query := query, parsed_query := none, response := none, error := none,
          step := "started", execution_path := ["start"], current_node := "start" } =
      "parse_query" by
      rw [nextNode_neg _ _ _ (by simp [truthy])]
      rfl]
    rw [show (19 : Nat) = 18 + 1 from rfl,
      engineLoop_succ_proj _ _ _ _ _ (by decide : ¬("parse_query" : String) = "end")]
    have h2 : execute_node (mkRegistry classify lookupN summaryN formatterN routerN)
        { query := query, parsed_query := none, response := none, error := none,
          step := "started", execution_path := ["start"], current_node := "start" }
        "parse_query" =
        { query := query, parsed_query := some (classify query), response := none,
          error := none, step := "parsed",
          execution_path := ["start", "parse_query"],
          current_node := "parse_query" } := rfl
    rw [h2, hcq]
    rw [show nextNode routeNext "parse_query"
        { query := query, parsed_query := some ⟨qc, qp, "unsupported", qo⟩,
          response := none, error := none, step := "parsed",
          execution_path := ["start", "parse_query"],
          current_node := "parse_query" } = "error_handler" by
      rw [nextNode_neg _ _ _ (by simp [truthy])]
      simp [routeNext]]
    rw [show (18 : Nat) = 17 + 1 from rfl,
      engineLoop_succ_proj _ _ _ _ _ (by decide : ¬("error_handler" : String) = "end")]
    have h3 : execute_node (mkRegistry classify lookupN summaryN formatterN routerN)
        { query := query, parsed_query := some ⟨qc, qp, "unsupported", qo⟩,
          response := none, error := none, step := "parsed",
          execution_path := ["start", "parse_query"],
          current_node := "parse_query" } "error_handler" =
        { query := query, parsed_query := some ⟨qc, qp, "unsupported", qo⟩,
          response := some (errorHandlerResponse none), error := none,
          step := "error_handled",
          execution_path := ["start", "parse_query", "error_handler"],
          current_node := "error_handler" } := rfl
    rw [h3]
    rw [show nextNode routeNext "error_handler"
        { query := query, parsed_query := some ⟨qc, qp, "unsupported", qo⟩,
          response := some (errorHandlerResponse none), error := none,
          step := "error_handled",
          execution_path := ["start", "parse_query", "error_handler"],
          current_node := "error_handler" } = "end" by
      rw [nextNode_neg _ _ _ (by simp [truthy])]
      rfl]
    rw [show (17 : Nat) = 16 + 1 from rfl, engineLoop_end]
    rfl
  rw [hrun]
  refine ⟨rfl, ⟨errorHandlerResponse none, rfl, by decide⟩, rfl⟩

def classifyUnsupported : String → TariffQueryM := fun q =>
  { intent := "unsupported", original_query := q }

/-- C8 (witness): the unsupported-intent run at a concrete classification
stub and query. -/
theorem C8_witness :
    (run_dynamic_analysis
        (mkRegistry classifyUnsupported nodeId nodeId nodeId nodeId)
        routeNext "analyze margins").execution_path =
      ["start", "parse_query", "error_handler", "end"] ∧
    (∃ resp, (run_dynamic_analysis
        (mkRegistry classifyUnsupported nodeId nodeId nodeId nodeId)
        routeNext "analyze margins").response = some resp ∧ resp ≠ "") ∧
    (run_dynamic_analysis
        (mkRegistry classifyUnsupported nodeId nodeId nodeId nodeId)
        routeNext "analyze margins").error = none :=
  C8_unsupported_intent classifyUnsupported nodeId nodeId nodeId nodeId
    "analyze margins" rfl

end TariffTok
